import Mathlib

set_option maxRecDepth 8000

/-!
Verification of the addressing and targeting engine of KeyboardJockey
(`src/KeyboardJockey.cpp`).

The development shallowly embeds the core data model and operations:

* geometry: `RECT`-style rectangles over `Int` coordinates; a GDI region is
  modelled by its set of pixels (a `Finset (Int × Int)`), `CombineRgn` with
  `RGN_DIFF` by set difference, and the `GetRegionData` area summation by the
  cardinality of the pixel set (a GDI region is exactly a set of pixels stored
  as disjoint rectangles, so the sum of the areas of those rectangles is the
  cardinality);
* the window catalog (`EnumerateAppWindows`): per-window visible-area
  computation, the `std::sort` call (modelled relationally, since `std::sort`
  guarantees a sorted permutation but not stability), and the erase/remove_if
  filtering;
* the grid builder (`BuildGridCells`, `GenerateLabel`): per-monitor grid
  dimensioning with the 676-cell capping loop (embedded with explicit fuel
  `cols + rows`, which strictly decreases at every iteration of the C++
  `while` loop), cell rectangles, centers, sub-points and labels, and the
  label → center lookup map;
* the input state machine (`ProcessTypedChar`, `GetSubPointIndex`,
  `FilterAppWindowsBySearch`, `HideGrid`, the `WM_CHAR` letter routing):
  embedded as explicit state-passing functions over a `MachineState` record
  whose fields mirror the program's globals.  `MoveMouse`/`SetCursorPos` is
  modelled by recording the last requested pointer position; `SetTimer` /
  `KillTimer` for the two one-shot timers by two `Bool` armed-flags.

Wide characters are modelled as their `Nat` code points; `towlower` by its
"C"-locale / ASCII behaviour (the only one exercised by the program's
alphabet).
-/

/-! ### Geometry -/

/-- A `POINT`: x/y in global (virtual-desktop) coordinates. -/
structure Pt where
  x : Int
  y : Int
deriving DecidableEq, Repr

/-- A `RECT`: left/top inclusive, right/bottom exclusive, as in GDI. -/
structure RECT where
  left : Int
  top : Int
  right : Int
  bottom : Int
deriving DecidableEq, Repr

/-- The set of pixels of a rectangle: the GDI region `CreateRectRgn` denotes. -/
def RECT.pixels (r : RECT) : Finset (Int × Int) :=
  Finset.Ico r.left r.right ×ˢ Finset.Ico r.top r.bottom

/-- Exact area of a rectangle in pixels. -/
def RECT.area (r : RECT) : Nat :=
  (r.right - r.left).toNat * (r.bottom - r.top).toNat

/-! ### Window catalog: `EnumerateAppWindows` -/

/-- `AppWindow` record: handle, bounding rectangle, title text (code points),
and the computed visible (unoccluded) pixel area. -/
structure AppWindow where
  hwnd : Nat
  rect : RECT
  title : List Nat
  visibleArea : Nat
deriving DecidableEq, Repr

/-- Union of the pixel sets of a list of rectangles. -/
def unionPixels (rs : List RECT) : Finset (Int × Int) :=
  rs.foldr (fun r acc => r.pixels ∪ acc) ∅

/-- Visible-area computation of `EnumerateAppWindows` for one window: start
from the window's own rectangle region and subtract, in order, the rectangle
of every window stacked above it (`CombineRgn … RGN_DIFF`), then take the
exact pixel area of what remains (`GetRegionData` summation). -/
def computeVisibleArea (above : List RECT) (r : RECT) : Nat :=
  (above.foldl (fun acc a => acc \ a.pixels) r.pixels).card

/-- The per-window area loop of `EnumerateAppWindows`: window `i` gets the
area of its rectangle minus the rectangles of windows `0 … i-1` (the
accumulator carries the rectangles already passed, in front-to-back order). -/
def computeAreas (above : List RECT) : List AppWindow → List AppWindow
  | [] => []
  | w :: rest =>
      { w with visibleArea := computeVisibleArea above w.rect }
        :: computeAreas (above ++ [w.rect]) rest

/-- The comparator passed to `std::sort`: `a.visibleArea > b.visibleArea`.
A valid `std::sort` output is any permutation of the input that is sorted
with respect to it, i.e. pairwise `¬(later > earlier)`. `std::sort` gives no
stability guarantee, so the call is modelled relationally. -/
def sortByAreaSpec (input output : List AppWindow) : Prop :=
  output.Perm input ∧ output.Pairwise (fun a b => b.visibleArea ≤ a.visibleArea)

/-- The erase/remove_if step at the end of `EnumerateAppWindows`: remove the
entries with `visibleArea <= 0` from the cycling list, keeping the relative
order of the survivors. -/
def removeZeroArea (ws : List AppWindow) : List AppWindow :=
  ws.filter (fun w => !(w.visibleArea ≤ 0 : Bool))

/-! ### Grid builder: `BuildGridCells`, `GenerateLabel` -/

/-- Monitor data as delivered by enumeration: bounds and DPI. -/
structure MonitorData where
  rcMonitor : RECT
  dpiX : Nat
  dpiY : Nat
deriving DecidableEq, Repr

/-- `MonitorInfo` after `GridMonitorEnumProc` assigned the label prefix
(`'a' + vec->size()`, i.e. code point `97 +` enumeration position). -/
structure MonitorInfo where
  rcMonitor : RECT
  dpiX : Nat
  dpiY : Nat
  prefixChar : Nat
deriving DecidableEq, Repr

/-- Prefix assignment of `GridMonitorEnumProc`: the monitor at enumeration
position `k` (counting from the given start) receives code point `97 + k`. -/
def assignPrefixesFrom (k : Nat) : List MonitorData → List MonitorInfo
  | [] => []
  | m :: rest =>
      ⟨m.rcMonitor, m.dpiX, m.dpiY, 97 + k⟩ :: assignPrefixesFrom (k + 1) rest

/-- `TARGET_CELL_SIZE_DIP * (int)mon.dpiX / DEFAULT_DPI` with
`TARGET_CELL_SIZE_DIP = 86`, `DEFAULT_DPI = 96` (integer division). -/
def targetCellPx (dpiX : Nat) : Nat :=
  86 * dpiX / 96

/-- One iteration step of the 676-cell capping loop, run with explicit fuel:
while `cols * rows > 676`, decrement whichever of cols/rows is larger (rows
when equal, as `gridCols > gridRows` is then false).  Each iteration strictly
decreases `cols + rows`, so fuel `cols + rows` always suffices
(`capDimsAux_post` below proves the loop exits with product `≤ 676` and
`capDimsAux_fuel` that extra fuel does not change the result). -/
def capDimsAux : Nat → Nat → Nat → Nat × Nat
  | 0, c, r => (c, r)
  | fuel + 1, c, r =>
      if 676 < c * r then
        if r < c then capDimsAux fuel (c - 1) r else capDimsAux fuel c (r - 1)
      else (c, r)

/-- The capping loop of `BuildGridCells`. -/
def capDims (c r : Nat) : Nat × Nat :=
  capDimsAux (c + r) c r

/-- Initial column count: `max(1, monWidth / targetCellPx)`. -/
def initCols (m : MonitorInfo) : Nat :=
  max 1 ((m.rcMonitor.right - m.rcMonitor.left).toNat / targetCellPx m.dpiX)

/-- Initial row count: `max(1, monHeight / targetCellPx)`. -/
def initRows (m : MonitorInfo) : Nat :=
  max 1 ((m.rcMonitor.bottom - m.rcMonitor.top).toNat / targetCellPx m.dpiX)

/-- Final grid dimensions (columns, rows) for one monitor. -/
def gridDims (m : MonitorInfo) : Nat × Nat :=
  capDims (initCols m) (initRows m)

/-- `GenerateLabel`: monitor prefix + 2-char cell code; the two letters are
emitted only when `index / 26 < 26`. -/
def GenerateLabel (monitorPrefix : Nat) (index : Nat) : List Nat :=
  let first := index / 26
  let second := index % 26
  if first < 26 then [monitorPrefix, 97 + first, 97 + second]
  else [monitorPrefix]

/-- A grid cell: rectangle, 3-letter label, center, the nine 3×3 sub-grid
points (index 4 is the geometric center), and row/column indices. -/
structure GridCell where
  rect : RECT
  label : List Nat
  center : Pt
  subPoints : List Pt
  gridRow : Nat
  gridCol : Nat
deriving DecidableEq, Repr

/-- Construction of one cell of `BuildGridCells` at (row, col) of a monitor
whose grid is `cols × rows` with cell size `cellW × cellH`:
`rect = [left + col·cellW, left + (col+1)·cellW) × [top + row·cellH, …)`,
`center = rect.left + cellW/2, rect.top + cellH/2`,
`subPoints[sy*3+sx] = (rect.left + sx·subW + subW/2, rect.top + sy·subH + subH/2)`
with `subW = cellW/3`, `subH = cellH/3`, and
`label = GenerateLabel prefix (row·cols + col)` (the running `index`). -/
def mkGridCell (m : MonitorInfo) (cols : Nat) (cellW cellH : Nat)
    (row col : Nat) : GridCell :=
  let left : Int := m.rcMonitor.left + col * cellW
  let top : Int := m.rcMonitor.top + row * cellH
  let subW := cellW / 3
  let subH := cellH / 3
  { rect := ⟨left, top, left + cellW, top + cellH⟩
    label := GenerateLabel m.prefixChar (row * cols + col)
    center := ⟨left + cellW / 2, top + cellH / 2⟩
    subPoints := (List.range 9).map (fun k =>
      ⟨left + (k % 3) * subW + subW / 2, top + (k / 3) * subH + subH / 2⟩)
    gridRow := row
    gridCol := col }

/-- Monitor width in pixels (`monWidth = rcMonitor.right - rcMonitor.left`). -/
def monWpx (m : MonitorInfo) : Nat :=
  (m.rcMonitor.right - m.rcMonitor.left).toNat

/-- Monitor height in pixels. -/
def monHpx (m : MonitorInfo) : Nat :=
  (m.rcMonitor.bottom - m.rcMonitor.top).toNat

/-- `cellWidth = monWidth / gridCols` (integer division). -/
def cellWpx (m : MonitorInfo) : Nat :=
  monWpx m / (gridDims m).1

/-- `cellHeight = monHeight / gridRows` (integer division). -/
def cellHpx (m : MonitorInfo) : Nat :=
  monHpx m / (gridDims m).2

/-- The sub-rectangle of the monitor actually covered by the grid cells:
`gridCols · cellWidth` by `gridRows · cellHeight` pixels anchored at the
monitor's top-left corner. -/
def coveredRect (m : MonitorInfo) : RECT :=
  ⟨m.rcMonitor.left, m.rcMonitor.top,
    m.rcMonitor.left + (gridDims m).1 * cellWpx m,
    m.rcMonitor.top + (gridDims m).2 * cellHpx m⟩

/-- The per-monitor double loop of `BuildGridCells`, row-major. -/
def buildMonitorCells (m : MonitorInfo) : List GridCell :=
  (List.range (gridDims m).2).flatMap (fun row =>
    (List.range (gridDims m).1).map (fun col =>
      mkGridCell m (gridDims m).1 (cellWpx m) (cellHpx m) row col))

/-- `BuildGridCells`: enumerate monitors (assigning prefixes from `'a'`) and
concatenate each monitor's cells. -/
def BuildGridCells (ms : List MonitorData) : List GridCell :=
  (assignPrefixesFrom 0 ms).flatMap buildMonitorCells

/-- `std::map` assignment `m[k] = v`: overwrite the existing entry for `k`,
or append a new one. -/
def mapInsert (m : List (List Nat × Pt)) (k : List Nat) (v : Pt) :
    List (List Nat × Pt) :=
  if m.any (fun p => p.1 == k) then
    m.map (fun p => if p.1 == k then (k, v) else p)
  else m ++ [(k, v)]

/-- `std::map::find`. -/
def mapFind (m : List (List Nat × Pt)) (k : List Nat) : Option Pt :=
  (m.find? (fun p => p.1 == k)).map (fun p => p.2)

/-- The `g_gridMap[cell.label] = cell.center` insertions of `BuildGridCells`,
in cell order. -/
def buildGridMap (ms : List MonitorData) : List (List Nat × Pt) :=
  (BuildGridCells ms).foldl (fun acc c => mapInsert acc c.label c.center) []

/-! ### Input state machine -/

/-- `towlower` in the "C" locale / ASCII range, on code points: `A`–`Z` map
to `a`–`z`, everything else is unchanged. -/
def towlowerN (c : Nat) : Nat :=
  if 65 ≤ c ∧ c ≤ 90 then c + 32 else c

/-- `GetSubPointIndex`: `a`–`d` give 0–3, `e`–`h` give 5–8 (skipping the
center index 4), anything else falls back to 4 (the center). -/
def GetSubPointIndex (ch : Nat) : Nat :=
  if 97 ≤ ch ∧ ch ≤ 100 then ch - 97
  else if 101 ≤ ch ∧ ch ≤ 104 then ch - 97 + 1
  else 4

/-- The mutable globals of the program that the addressing and selector
logic reads and writes, as one record.  `mouse` records the last
`SetCursorPos` request (`none` = the pointer has not been moved);
`resetTimerArmed` / `tabTextTimerArmed` model the one-shot
`TIMER_ID_RESET` / `TIMER_ID_TAB_TEXT` timers (`SetTimer` arms,
`KillTimer` disarms). -/
structure MachineState where
  gridVisible : Bool
  mouseMoveMode : Bool
  scrollMode : Bool
  tabTextMode : Bool
  typedChars : List Nat
  tabSearchStr : List Nat
  appWindows : List AppWindow
  allAppWindows : List AppWindow
  minimizedWindows : List AppWindow
  allMinimizedWindows : List AppWindow
  highlightIndex : Int
  mouse : Option Pt
  resetTimerArmed : Bool
  tabTextTimerArmed : Bool
deriving DecidableEq, Repr

/-- `ProcessTypedChar`: accept a lowercase letter into the address buffer,
leave window-highlight mode, rearm the inactivity reset timer, and resolve
the buffer at length 3 (move to the cell center, keep the buffer) and at
length 4 (move to the selected sub-point or the center, then clear the
buffer). -/
def ProcessTypedChar (cells : List GridCell) (gridMap : List (List Nat × Pt))
    (s : MachineState) (ch : Nat) : MachineState :=
  if s.gridVisible = false then s
  else
    let c := towlowerN ch
    if 97 ≤ c ∧ c ≤ 122 then
      let s1 :=
        { s with
            typedChars := s.typedChars ++ [c]
            highlightIndex := if 0 ≤ s.highlightIndex then -1 else s.highlightIndex
            appWindows := if 0 ≤ s.highlightIndex then [] else s.appWindows
            mouseMoveMode := false
            resetTimerArmed := true }
      if s1.typedChars.length = 4 then
        let threeChar := s1.typedChars.take 3
        let subChar := s1.typedChars.getD 3 0
        let s2 :=
          match cells.find? (fun cell => cell.label == threeChar) with
          | some cell =>
              if 97 ≤ subChar ∧ subChar ≤ 104 then
                let target := cell.subPoints.getD (GetSubPointIndex subChar) ⟨0, 0⟩
                { s1 with mouse := some target }
              else
                { s1 with mouse := some cell.center }
          | none => s1
        { s2 with typedChars := [] }
      else if s1.typedChars.length = 3 then
        match mapFind gridMap s1.typedChars with
        | some pt => { s1 with mouse := some pt }
        | none => s1
      else s1
    else s

/-- `HideGrid`: if the grid is visible, hide it and clear the transient
state.  Note which timer is killed: only `TIMER_ID_TAB_TEXT`;
`TIMER_ID_RESET` (the address-reset inactivity timer) is left armed. -/
def HideGrid (s : MachineState) : MachineState :=
  if s.gridVisible = false then s
  else
    { s with
        gridVisible := false
        mouseMoveMode := false
        typedChars := []
        appWindows := []
        allAppWindows := []
        minimizedWindows := []
        allMinimizedWindows := []
        highlightIndex := -1
        tabSearchStr := []
        tabTextMode := false
        tabTextTimerArmed := false
        scrollMode := false }

/-- Check whether `needle` occurs at the start of `hay`. -/
def startsWith : List Nat → List Nat → Bool
  | [], _ => true
  | _ :: _, [] => false
  | a :: as, b :: bs => a == b && startsWith as bs

/-- `std::wstring::find(needle) != npos`: `needle` occurs contiguously
somewhere in `hay`. -/
def strFind (needle : List Nat) : List Nat → Bool
  | [] => startsWith needle []
  | b :: bs => startsWith needle (b :: bs) || strFind needle bs

/-- Specification-side reading of "contains as a substring". -/
def IsSubstring (needle hay : List Nat) : Prop :=
  ∃ p q, hay = p ++ needle ++ q

/-- Case-insensitive title match used by the selector filter. -/
def titleMatches (search : List Nat) (title : List Nat) : Bool :=
  strFind (search.map towlowerN) (title.map towlowerN)

/-- `FilterAppWindowsBySearch`: with an empty search string return unchanged;
otherwise rebuild `appWindows` / `minimizedWindows` from the unfiltered full
catalogs by case-insensitive substring match against each title, and reset
the highlight to the first match (`-1` when there is none at all). -/
def FilterAppWindowsBySearch (s : MachineState) : MachineState :=
  if s.tabSearchStr = [] then s
  else
    let app := s.allAppWindows.filter (fun w => titleMatches s.tabSearchStr w.title)
    let minim :=
      s.allMinimizedWindows.filter (fun w => titleMatches s.tabSearchStr w.title)
    { s with
        appWindows := app
        minimizedWindows := minim
        highlightIndex :=
          if app ≠ [] then 0 else if minim ≠ [] then 0 else -1 }

/-- The lowercase-letter branch of the overlay's `WM_CHAR` handler: while the
selector is active (a highlight exists, text mode is on, or a search string
is present) the letter is appended to the search string, the auto-promote
timer is rearmed and the filter is applied; otherwise the letter goes to
`ProcessTypedChar`. -/
def onCharLetter (cells : List GridCell) (gridMap : List (List Nat × Pt))
    (s : MachineState) (ch : Nat) : MachineState :=
  if 97 ≤ ch ∧ ch ≤ 122 then
    if 0 ≤ s.highlightIndex ∨ s.tabTextMode = true ∨ s.tabSearchStr ≠ [] then
      FilterAppWindowsBySearch
        { s with
            tabSearchStr := s.tabSearchStr ++ [ch]
            tabTextTimerArmed := true }
    else ProcessTypedChar cells gridMap s ch
  else s

/-! ### Stability predicate and concrete instances used in the theorems -/

/-- Stability of a sort on ties: any two windows of equal `visibleArea` that
appear in a given relative order in the input (as a two-element
subsequence) appear in the same relative order in the output. -/
def stableTieOrder (input output : List AppWindow) : Prop :=
  ∀ a b, a.visibleArea = b.visibleArea →
    List.Sublist [a, b] input → List.Sublist [a, b] output

/-- Default `AppWindow` used with `List.getD`. -/
def dfltWin : AppWindow := ⟨0, ⟨0, 0, 0, 0⟩, [], 0⟩

/-- Window A of the spec's occlusion example: `(0,0)-(1000,1000)`, topmost. -/
def winA : AppWindow := ⟨0, ⟨0, 0, 1000, 1000⟩, [], 0⟩

/-- Window B of the spec's occlusion example: `(0,0)-(500,500)`, below A. -/
def winB : AppWindow := ⟨1, ⟨0, 0, 500, 500⟩, [], 0⟩

/-- A small 100×100, 96-DPI monitor (single grid cell `aaa`). -/
def exMonitor : MonitorData := ⟨⟨0, 0, 100, 100⟩, 96, 96⟩

/-- The single grid cell the builder produces for `exMonitor`. -/
def exCell : GridCell :=
  { rect := ⟨0, 0, 100, 100⟩
    label := [97, 97, 97]
    center := ⟨50, 50⟩
    subPoints :=
      [⟨16, 16⟩, ⟨49, 16⟩, ⟨82, 16⟩, ⟨16, 49⟩, ⟨49, 49⟩, ⟨82, 49⟩,
        ⟨16, 82⟩, ⟨49, 82⟩, ⟨82, 82⟩]
    gridRow := 0
    gridCol := 0 }

/-- A 173×86, 96-DPI monitor (prefix `a`): 2 columns × 1 row of 86×86 cells,
leaving a 1-pixel-wide residual strip at `x = 172` uncovered. -/
def residMonitor : MonitorInfo := ⟨⟨0, 0, 173, 86⟩, 96, 96, 97⟩

/-- Two distinct windows with equal `visibleArea` (tie for the sort). -/
def tieA : AppWindow := ⟨0, ⟨0, 0, 1, 1⟩, [], 5⟩

/-- Second window of the tie pair. -/
def tieB : AppWindow := ⟨1, ⟨0, 0, 1, 1⟩, [], 5⟩

/-- Window titled `Notepad`. -/
def notepadW : AppWindow := ⟨0, ⟨0, 0, 1, 1⟩, [78, 111, 116, 101, 112, 97, 100], 1⟩

/-- Window titled `Notepad++`. -/
def notepadPPW : AppWindow :=
  ⟨1, ⟨0, 0, 1, 1⟩, [78, 111, 116, 101, 112, 97, 100, 43, 43], 1⟩

/-- Window titled `Firefox`. -/
def firefoxW : AppWindow := ⟨2, ⟨0, 0, 1, 1⟩, [70, 105, 114, 101, 102, 111, 120], 1⟩

/-- A machine state with the grid visible and the buffer holding `aa`. -/
def exStateAA : MachineState :=
  { gridVisible := true
    mouseMoveMode := false
    scrollMode := false
    tabTextMode := false
    typedChars := [97, 97]
    tabSearchStr := []
    appWindows := []
    allAppWindows := []
    minimizedWindows := []
    allMinimizedWindows := []
    highlightIndex := -1
    mouse := none
    resetTimerArmed := false
    tabTextTimerArmed := false }

/-- A machine state with the grid visible and the buffer holding `zz`. -/
def exStateZZ : MachineState :=
  { exStateAA with typedChars := [122, 122] }

/-- An active window-selector state: highlight on index 0, search string
`not`, full catalog `Notepad` / `Notepad++` / `Firefox`, no minimized
windows. -/
def exSelectorState : MachineState :=
  { exStateAA with
      typedChars := []
      tabSearchStr := [110, 111, 116]
      highlightIndex := 0
      appWindows := [notepadW, notepadPPW, firefoxW]
      allAppWindows := [notepadW, notepadPPW, firefoxW] }

/-- A grid-typing state with both timers armed and transient state populated,
about to be hidden. -/
def exHideState : MachineState :=
  { exStateAA with
      typedChars := [97, 98]
      appWindows := [notepadW]
      allAppWindows := [notepadW, firefoxW]
      minimizedWindows := [notepadPPW]
      allMinimizedWindows := [notepadPPW]
      highlightIndex := 0
      tabSearchStr := [110]
      tabTextMode := true
      scrollMode := true
      resetTimerArmed := true
      tabTextTimerArmed := true }

/-- A 1920×1080, 96-DPI monitor with prefix `a` (the spec's example monitor:
22 × 12 grid). -/
def exMonitorFHD : MonitorInfo := ⟨⟨0, 0, 1920, 1080⟩, 96, 96, 97⟩

/-! ### Basic geometry lemmas -/

theorem mem_pixels {r : RECT} {p : Int × Int} :
    p ∈ r.pixels ↔
      r.left ≤ p.1 ∧ p.1 < r.right ∧ r.top ≤ p.2 ∧ p.2 < r.bottom := by
  simp [RECT.pixels, Finset.mem_product, Finset.mem_Ico, and_assoc]

theorem card_pixels (r : RECT) : r.pixels.card = r.area := by
  simp [RECT.pixels, RECT.area, Finset.card_product, Int.card_Ico]

theorem mem_unionPixels {rs : List RECT} {p : Int × Int} :
    p ∈ unionPixels rs ↔ ∃ r ∈ rs, p ∈ r.pixels := by
  induction rs with
  | nil => simp [unionPixels]
  | cons a t ih =>
      rw [show unionPixels (a :: t) = a.pixels ∪ unionPixels t from rfl]
      simp [Finset.mem_union, ih]

theorem foldl_sdiff (l : List RECT) (s : Finset (Int × Int)) :
    l.foldl (fun acc a => acc \ a.pixels) s = s \ unionPixels l := by
  induction l generalizing s with
  | nil => simp [unionPixels]
  | cons a t ih =>
      rw [List.foldl_cons, ih,
        show unionPixels (a :: t) = a.pixels ∪ unionPixels t from rfl]
      ext p
      simp only [Finset.mem_sdiff, Finset.mem_union]
      tauto

theorem computeVisibleArea_eq (above : List RECT) (r : RECT) :
    computeVisibleArea above r = (r.pixels \ unionPixels above).card := by
  unfold computeVisibleArea
  rw [foldl_sdiff]

theorem computeAreas_length (above : List RECT) (ws : List AppWindow) :
    (computeAreas above ws).length = ws.length := by
  induction ws generalizing above with
  | nil => rfl
  | cons w t ih => simp [computeAreas, ih]

theorem computeAreas_getD (above : List RECT) (ws : List AppWindow) (i : Nat)
    (h : i < ws.length) :
    (computeAreas above ws).getD i dfltWin =
      { ws.getD i dfltWin with
          visibleArea :=
            computeVisibleArea (above ++ (ws.take i).map AppWindow.rect)
              (ws.getD i dfltWin).rect } := by
  induction ws generalizing above i with
  | nil => simp at h
  | cons w t ih =>
      cases i with
      | zero => simp [computeAreas]
      | succ n =>
          have hn : n < t.length := by simpa using h
          simp only [computeAreas, List.getD_cons_succ, List.take_succ_cons,
            List.map_cons]
          rw [ih (above ++ [w.rect]) n hn, List.append_assoc,
            List.singleton_append]

/-! ### C1 — visible-area computation -/

/-- C1: in a front-to-back ordered window list, the computed `visibleArea` of
the window at index `i` equals the exact pixel area (cardinality of the pixel
set, i.e. the sum of the areas of the disjoint rectangles of the region, not
a bounding box) of its rectangle minus the union of the rectangles at indices
`< i`; a fully unobstructed window keeps exactly its rectangle's area; and in
the spec's example window B `(0,0)-(500,500)` below window A
`(0,0)-(1000,1000)` gets `visibleArea = 0`, and `250000` once A is removed. -/
theorem c1_visibleArea_exact_occlusion :
    (∀ ws : List AppWindow, ∀ i, i < ws.length →
        ((computeAreas [] ws).getD i dfltWin).visibleArea =
          ((ws.getD i dfltWin).rect.pixels \
            unionPixels ((ws.take i).map AppWindow.rect)).card) ∧
    (∀ ws : List AppWindow, ∀ i, i < ws.length →
        (∀ w ∈ ws.take i,
            Disjoint w.rect.pixels (ws.getD i dfltWin).rect.pixels) →
        ((computeAreas [] ws).getD i dfltWin).visibleArea =
          (ws.getD i dfltWin).rect.area) ∧
    ((computeAreas [] [winA, winB]).getD 1 dfltWin).visibleArea = 0 ∧
    ((computeAreas [] [winB]).getD 0 dfltWin).visibleArea = 250000 := by
  have main : ∀ ws : List AppWindow, ∀ i, i < ws.length →
      ((computeAreas [] ws).getD i dfltWin).visibleArea =
        ((ws.getD i dfltWin).rect.pixels \
          unionPixels ((ws.take i).map AppWindow.rect)).card := by
    intro ws i h
    rw [computeAreas_getD [] ws i h]
    simp [computeVisibleArea_eq]
  refine ⟨main, ?_, ?_, ?_⟩
  · intro ws i h hdisj
    rw [main ws i h,
      show (ws.getD i dfltWin).rect.pixels \
          unionPixels ((ws.take i).map AppWindow.rect) =
          (ws.getD i dfltWin).rect.pixels from ?_,
      card_pixels]
    rw [sdiff_eq_self_iff_disjoint, Finset.disjoint_left]
    intro p hp
    rcases mem_unionPixels.mp hp with ⟨r, hr, hpr⟩
    rcases List.mem_map.mp hr with ⟨w, hw, rfl⟩
    exact fun hmem => Finset.disjoint_left.mp (hdisj w hw) hpr hmem
  · rw [main [winA, winB] 1 (by simp)]
    rw [show unionPixels (([winA, winB].take 1).map AppWindow.rect) =
        winA.rect.pixels from by simp [unionPixels, winA]]
    rw [show ([winA, winB].getD 1 dfltWin) = winB from rfl]
    rw [show winB.rect.pixels \ winA.rect.pixels = ∅ from ?_, Finset.card_empty]
    rw [Finset.sdiff_eq_empty_iff_subset]
    intro p hp
    rw [mem_pixels] at hp ⊢
    simp only [winA, winB] at hp ⊢
    omega
  · rw [main [winB] 0 (by simp)]
    simp only [List.take_zero, List.map_nil,
      show unionPixels [] = ∅ from rfl, Finset.sdiff_empty]
    rw [show ([winB].getD 0 dfltWin) = winB from rfl, card_pixels]
    simp [RECT.area, winB]

/-- Witness for C1: the first conjunct applied to the two-window example list
at index 1. -/
theorem c1_visibleArea_exact_occlusion_witness :
    (1 < ([winA, winB] : List AppWindow).length) ∧
    ((computeAreas [] [winA, winB]).getD 1 dfltWin).visibleArea =
      ((([winA, winB].getD 1 dfltWin).rect.pixels \
        unionPixels (([winA, winB].take 1).map AppWindow.rect)).card) :=
  ⟨by decide, c1_visibleArea_exact_occlusion.1 [winA, winB] 1 (by decide)⟩

/-! ### Capping-loop lemmas and C4 -/

theorem capDimsAux_le : ∀ fuel c r,
    (capDimsAux fuel c r).1 ≤ c ∧ (capDimsAux fuel c r).2 ≤ r := by
  intro fuel
  induction fuel with
  | zero => intro c r; exact ⟨le_refl c, le_refl r⟩
  | succ f ih =>
      intro c r
      simp only [capDimsAux]
      split
      · split
        · have h := ih (c - 1) r
          exact ⟨h.1.trans (Nat.sub_le c 1), h.2⟩
        · have h := ih c (r - 1)
          exact ⟨h.1, h.2.trans (Nat.sub_le r 1)⟩
      · exact ⟨le_refl c, le_refl r⟩

theorem capDimsAux_pos : ∀ fuel c r, 1 ≤ c → 1 ≤ r →
    1 ≤ (capDimsAux fuel c r).1 ∧ 1 ≤ (capDimsAux fuel c r).2 := by
  intro fuel
  induction fuel with
  | zero => intro c r hc hr; exact ⟨hc, hr⟩
  | succ f ih =>
      intro c r hc hr
      simp only [capDimsAux]
      split
      · rename_i hlt
        split
        · rename_i hrc
          exact ih (c - 1) r (by omega) hr
        · rename_i hrc
          have h2 : 2 ≤ r := by
            rcases r with _ | _ | r
            · simp at hlt
            · rw [Nat.mul_one] at hlt
              omega
            · omega
          exact ih c (r - 1) hc (by omega)
      · exact ⟨hc, hr⟩

theorem capDimsAux_post : ∀ fuel c r, c + r ≤ fuel →
    (capDimsAux fuel c r).1 * (capDimsAux fuel c r).2 ≤ 676 := by
  intro fuel
  induction fuel with
  | zero =>
      intro c r h
      have hc : c = 0 := by omega
      subst hc
      simp [capDimsAux]
  | succ f ih =>
      intro c r h
      simp only [capDimsAux]
      split
      · rename_i hlt
        have hc : c ≠ 0 := by rintro rfl; simp at hlt
        have hr : r ≠ 0 := by rintro rfl; simp at hlt
        split
        · exact ih (c - 1) r (by omega)
        · exact ih c (r - 1) (by omega)
      · rename_i hle
        exact Nat.le_of_not_lt hle

theorem capDimsAux_fuel : ∀ fuel g c r, c + r ≤ fuel → fuel ≤ g →
    capDimsAux g c r = capDimsAux fuel c r := by
  intro fuel
  induction fuel with
  | zero =>
      intro g c r h hg
      have hc : c = 0 := by omega
      have hr : r = 0 := by omega
      subst hc
      subst hr
      cases g with
      | zero => rfl
      | succ g' => simp [capDimsAux]
  | succ f ih =>
      intro g c r h hg
      cases g with
      | zero => omega
      | succ g' =>
          simp only [capDimsAux]
          split
          · rename_i hlt
            have hc : c ≠ 0 := by rintro rfl; simp at hlt
            have hr : r ≠ 0 := by rintro rfl; simp at hlt
            split
            · exact ih g' (c - 1) r (by omega) (by omega)
            · exact ih g' c (r - 1) (by omega) (by omega)
          · rfl

/-- C4: for every monitor (any width, height and DPI), the grid-dimension
capping procedure yields final counts with `columns ≥ 1`, `rows ≥ 1` and
`columns · rows ≤ 676`, and it terminates: the loop needs at most
`columns + rows` iterations, so running it with any fuel of at least
`initCols + initRows` produces the same final dimensions. -/
theorem c4_capping_terminates_bounded (m : MonitorInfo) :
    1 ≤ (gridDims m).1 ∧ 1 ≤ (gridDims m).2 ∧
      (gridDims m).1 * (gridDims m).2 ≤ 676 ∧
      ∀ fuel, initCols m + initRows m ≤ fuel →
        capDimsAux fuel (initCols m) (initRows m) = gridDims m := by
  have hc : 1 ≤ initCols m := le_max_left 1 _
  have hr : 1 ≤ initRows m := le_max_left 1 _
  have hpos := capDimsAux_pos (initCols m + initRows m) (initCols m)
    (initRows m) hc hr
  have hpost := capDimsAux_post (initCols m + initRows m) (initCols m)
    (initRows m) (le_refl _)
  refine ⟨hpos.1, hpos.2, hpost, ?_⟩
  intro fuel hf
  exact capDimsAux_fuel (initCols m + initRows m) fuel (initCols m)
    (initRows m) (le_refl _) hf

/-- Witness for C4: the 1920×1080 @ 96 DPI monitor; its initial 22 × 12 grid
is already under the cap, and fuel 100 exceeds `22 + 12`. -/
theorem c4_capping_terminates_bounded_witness :
    1 ≤ (gridDims exMonitorFHD).1 ∧ 1 ≤ (gridDims exMonitorFHD).2 ∧
      (gridDims exMonitorFHD).1 * (gridDims exMonitorFHD).2 ≤ 676 ∧
      capDimsAux 100 (initCols exMonitorFHD) (initRows exMonitorFHD) =
        gridDims exMonitorFHD := by
  have h := c4_capping_terminates_bounded exMonitorFHD
  exact ⟨h.1, h.2.1, h.2.2.1, h.2.2.2 100 (by decide)⟩

/-! ### Grid structure lemmas -/

theorem gridDims_pos (m : MonitorInfo) :
    0 < (gridDims m).1 ∧ 0 < (gridDims m).2 :=
  capDimsAux_pos _ _ _ (le_max_left 1 _) (le_max_left 1 _)

theorem gridDims_prod_le (m : MonitorInfo) :
    (gridDims m).1 * (gridDims m).2 ≤ 676 :=
  capDimsAux_post _ _ _ (le_refl _)

theorem flatMap_grid {α : Type} (f : Nat → Nat → α) (rows cols : Nat)
    (hcols : 0 < cols) :
    (List.range rows).flatMap
        (fun row => (List.range cols).map (fun col => f row col)) =
      (List.range (rows * cols)).map (fun k => f (k / cols) (k % cols)) := by
  induction rows with
  | zero => simp
  | succ n ih =>
      rw [List.range_succ, List.flatMap_append, ih,
        show (n + 1) * cols = n * cols + cols from by ring,
        List.range_add, List.map_append, List.map_map]
      congr 1
      simp only [List.flatMap_cons, List.flatMap_nil, List.append_nil]
      apply List.map_congr_left
      intro c hc
      rw [List.mem_range] at hc
      simp only [Function.comp_apply]
      rw [show n * cols + c = c + cols * n from by ring,
        Nat.add_mul_div_left _ _ hcols, Nat.add_mul_mod_self_left,
        Nat.div_eq_of_lt hc, Nat.mod_eq_of_lt hc, Nat.zero_add]

theorem buildMonitorCells_eq (m : MonitorInfo) :
    buildMonitorCells m =
      (List.range ((gridDims m).2 * (gridDims m).1)).map
        (fun k => mkGridCell m (gridDims m).1 (cellWpx m) (cellHpx m)
          (k / (gridDims m).1) (k % (gridDims m).1)) :=
  flatMap_grid _ _ _ (gridDims_pos m).1

theorem buildMonitorCells_length (m : MonitorInfo) :
    (buildMonitorCells m).length = (gridDims m).2 * (gridDims m).1 := by
  rw [buildMonitorCells_eq]
  simp

theorem mkGridCell_label (m : MonitorInfo) (cols cellW cellH row col : Nat) :
    (mkGridCell m cols cellW cellH row col).label =
      GenerateLabel m.prefixChar (row * cols + col) :=
  rfl

theorem buildMonitorCells_labels (m : MonitorInfo) :
    (buildMonitorCells m).map GridCell.label =
      (List.range ((gridDims m).2 * (gridDims m).1)).map
        (fun k => GenerateLabel m.prefixChar k) := by
  rw [buildMonitorCells_eq, List.map_map]
  apply List.map_congr_left
  intro k hk
  simp only [Function.comp_apply, mkGridCell_label]
  rw [show k / (gridDims m).1 * (gridDims m).1 + k % (gridDims m).1 = k from by
    rw [Nat.mul_comm]
    exact Nat.div_add_mod k (gridDims m).1]

/-! ### Label lemmas and C3 -/

theorem GenerateLabel_three (p k : Nat) (hk : k < 676) :
    GenerateLabel p k = [p, 97 + k / 26, 97 + k % 26] := by
  unfold GenerateLabel
  rw [if_pos (by omega)]

theorem GenerateLabel_inj (p k k' : Nat) (hk : k < 676) (hk' : k' < 676)
    (h : GenerateLabel p k = GenerateLabel p k') : k = k' := by
  rw [GenerateLabel_three p k hk, GenerateLabel_three p k' hk'] at h
  simp only [List.cons.injEq, and_true] at h
  omega

theorem GenerateLabel_head (p k : Nat) :
    ∃ rest, GenerateLabel p k = p :: rest := by
  unfold GenerateLabel
  by_cases h : k / 26 < 26
  · rw [if_pos h]
    exact ⟨_, rfl⟩
  · rw [if_neg h]
    exact ⟨_, rfl⟩

theorem monitor_labels_nodup (m : MonitorInfo) :
    ((buildMonitorCells m).map GridCell.label).Nodup := by
  rw [buildMonitorCells_labels]
  apply List.Nodup.map_on _ (List.nodup_range _)
  intro k hk k' hk' h
  rw [List.mem_range] at hk hk'
  have hle := gridDims_prod_le m
  have hcomm : (gridDims m).2 * (gridDims m).1 =
      (gridDims m).1 * (gridDims m).2 := Nat.mul_comm _ _
  exact GenerateLabel_inj m.prefixChar k k' (by omega) (by omega) h

theorem monitor_label_head (m : MonitorInfo) (l : List Nat)
    (h : l ∈ (buildMonitorCells m).map GridCell.label) :
    ∃ rest, l = m.prefixChar :: rest := by
  rw [buildMonitorCells_labels] at h
  rcases List.mem_map.mp h with ⟨k, _, rfl⟩
  exact GenerateLabel_head m.prefixChar k

theorem assignPrefixesFrom_ge (ms : List MonitorData) :
    ∀ k mi, mi ∈ assignPrefixesFrom k ms → 97 + k ≤ mi.prefixChar := by
  induction ms with
  | nil => intro k mi h; simp [assignPrefixesFrom] at h
  | cons m rest ih =>
      intro k mi h
      simp only [assignPrefixesFrom, List.mem_cons] at h
      rcases h with rfl | h
      · exact le_refl _
      · exact le_trans (by omega) (ih (k + 1) mi h)

theorem assignPrefixesFrom_pairwise (ms : List MonitorData) :
    ∀ k, (assignPrefixesFrom k ms).Pairwise
      (fun a b => a.prefixChar < b.prefixChar) := by
  induction ms with
  | nil => intro k; exact List.Pairwise.nil
  | cons m rest ih =>
      intro k
      refine List.Pairwise.cons ?_ (ih (k + 1))
      intro b hb
      have := assignPrefixesFrom_ge rest (k + 1) b hb
      simp only [assignPrefixesFrom]
      omega

theorem gridLabels_nodup (ms : List MonitorData) :
    ((BuildGridCells ms).map GridCell.label).Nodup := by
  unfold BuildGridCells
  rw [List.map_flatMap, List.nodup_flatMap]
  constructor
  · intro m _
    exact monitor_labels_nodup m
  · apply (assignPrefixesFrom_pairwise ms 0).imp
    intro a b hab l hla hlb
    rcases monitor_label_head a l hla with ⟨ra, rfl⟩
    rcases monitor_label_head b _ hlb with ⟨rb, hb⟩
    simp only [List.cons.injEq] at hb
    omega

/-- C3: for every monitor set (each monitor assigned its distinct
single-character prefix `'a' + enumeration position`) and the per-monitor
grids built by the grid builder (labels `prefix + letter(index/26) +
letter(index%26)` in row-major order), all generated cell labels are pairwise
distinct across the entire grid. -/
theorem c3_labels_globally_unique (ms : List MonitorData) :
    ((BuildGridCells ms).map GridCell.label).Nodup :=
  gridLabels_nodup ms

/-! ### Grid map lemmas and C5 -/

theorem mapInsert_fresh (acc : List (List Nat × Pt)) (k : List Nat) (v : Pt)
    (hfresh : ∀ p ∈ acc, p.1 ≠ k) :
    mapInsert acc k v = acc ++ [(k, v)] := by
  unfold mapInsert
  rw [if_neg]
  simp only [List.any_eq_true, beq_iff_eq, not_exists, not_and]
  intro p hp
  exact hfresh p hp

theorem foldl_mapInsert_fresh :
    ∀ (cells : List GridCell) (acc : List (List Nat × Pt)),
      (∀ c ∈ cells, ∀ p ∈ acc, p.1 ≠ c.label) →
      ((cells.map GridCell.label).Nodup) →
      cells.foldl (fun a c => mapInsert a c.label c.center) acc =
        acc ++ cells.map (fun c => (c.label, c.center)) := by
  intro cells
  induction cells with
  | nil => intro acc _ _; simp
  | cons c rest ih =>
      intro acc hfresh hnodup
      rw [List.map_cons, List.nodup_cons] at hnodup
      simp only [List.foldl_cons]
      rw [mapInsert_fresh acc c.label c.center
        (fun p hp => hfresh c (List.mem_cons_self c rest) p hp)]
      rw [ih (acc ++ [(c.label, c.center)]) ?_ hnodup.2]
      · simp
      · intro c' hc' p hp
        rcases List.mem_append.mp hp with hp | hp
        · exact hfresh c' (List.mem_cons_of_mem _ hc') p hp
        · simp only [List.mem_singleton] at hp
          subst hp
          intro heq
          have heq2 : c.label = c'.label := heq
          exact hnodup.1 (heq2 ▸ List.mem_map_of_mem GridCell.label hc')

theorem buildGridMap_eq (ms : List MonitorData) :
    buildGridMap ms =
      (BuildGridCells ms).map (fun c => (c.label, c.center)) := by
  unfold buildGridMap
  rw [foldl_mapInsert_fresh (BuildGridCells ms) [] (by simp)
    (gridLabels_nodup ms)]
  simp

theorem mapFind_of_mem (cells : List GridCell) (c : GridCell)
    (hmem : c ∈ cells) (hnd : (cells.map GridCell.label).Nodup) :
    mapFind (cells.map (fun d => (d.label, d.center))) c.label =
      some c.center := by
  induction cells with
  | nil => simp at hmem
  | cons d rest ih =>
      rw [List.map_cons, List.nodup_cons] at hnd
      rcases List.mem_cons.mp hmem with rfl | hmem'
      · unfold mapFind
        rw [List.map_cons, List.find?_cons_of_pos _ (by simp)]
        rfl
      · have hne : (d.label == c.label) = false := by
          simp only [beq_eq_false_iff_ne, ne_eq]
          intro heq
          exact hnd.1 (heq ▸ List.mem_map_of_mem GridCell.label hmem')
        unfold mapFind
        rw [List.map_cons, List.find?_cons_of_neg _ (by simpa using hne)]
        exact ih hmem' hnd.2

theorem mapFind_of_not_mem (cells : List GridCell) (l : List Nat)
    (h : l ∉ cells.map GridCell.label) :
    mapFind (cells.map (fun d => (d.label, d.center))) l = none := by
  unfold mapFind
  rw [List.find?_eq_none.mpr]
  · rfl
  · intro p hp
    rcases List.mem_map.mp hp with ⟨d, hd, rfl⟩
    simp only [beq_iff_eq]
    intro heq
    exact h (heq ▸ List.mem_map_of_mem GridCell.label hd)

theorem cells_find_label (cells : List GridCell) (c : GridCell)
    (hmem : c ∈ cells) (hnd : (cells.map GridCell.label).Nodup) :
    cells.find? (fun d => d.label == c.label) = some c := by
  induction cells with
  | nil => simp at hmem
  | cons d rest ih =>
      rw [List.map_cons, List.nodup_cons] at hnd
      rcases List.mem_cons.mp hmem with rfl | hmem'
      · rw [List.find?_cons_of_pos _ (by simp)]
      · have hne : (d.label == c.label) = false := by
          simp only [beq_eq_false_iff_ne, ne_eq]
          intro heq
          exact hnd.1 (heq ▸ List.mem_map_of_mem GridCell.label hmem')
        rw [List.find?_cons_of_neg _ (by simpa using hne)]
        exact ih hmem' hnd.2

theorem cells_find_label_none (cells : List GridCell) (l : List Nat)
    (h : l ∉ cells.map GridCell.label) :
    cells.find? (fun d => d.label == l) = none := by
  rw [List.find?_eq_none]
  intro d hd
  simp only [beq_iff_eq]
  intro heq
  exact h (heq ▸ List.mem_map_of_mem GridCell.label hd)

/-- C5: round-trip — for every cell the grid builder generates, looking its
label up in the label → center map returns exactly that cell's center. -/
theorem c5_label_roundtrip (ms : List MonitorData) :
    ∀ c ∈ BuildGridCells ms,
      mapFind (buildGridMap ms) c.label = some c.center := by
  intro c hc
  rw [buildGridMap_eq]
  exact mapFind_of_mem _ c hc (gridLabels_nodup ms)

/-- Witness for C5: the single cell `aaa` of the 100×100 monitor resolves to
its center `(50, 50)`. -/
theorem c5_label_roundtrip_witness :
    exCell ∈ BuildGridCells [exMonitor] ∧
      mapFind (buildGridMap [exMonitor]) exCell.label = some exCell.center :=
  ⟨by decide, c5_label_roundtrip [exMonitor] exCell (by decide)⟩

/-! ### State machine lemmas -/

theorem towlowerN_of_lower {ch : Nat} (h : 97 ≤ ch) : towlowerN ch = ch := by
  unfold towlowerN
  rw [if_neg]
  omega

theorem GetSubPointIndex_ne_four {ch : Nat} (h1 : 97 ≤ ch) (h2 : ch ≤ 104) :
    GetSubPointIndex ch ≠ 4 := by
  unfold GetSubPointIndex
  split_ifs <;> omega

theorem mem_buildGridCells (ms : List MonitorData) (c : GridCell)
    (hc : c ∈ BuildGridCells ms) :
    ∃ m k, m ∈ assignPrefixesFrom 0 ms ∧
      k < (gridDims m).2 * (gridDims m).1 ∧
      c = mkGridCell m (gridDims m).1 (cellWpx m) (cellHpx m)
        (k / (gridDims m).1) (k % (gridDims m).1) := by
  unfold BuildGridCells at hc
  rcases List.mem_flatMap.mp hc with ⟨m, hm, hcm⟩
  rw [buildMonitorCells_eq] at hcm
  rcases List.mem_map.mp hcm with ⟨k, hk, rfl⟩
  exact ⟨m, k, hm, List.mem_range.mp hk, rfl⟩

theorem cell_label_length (ms : List MonitorData) (c : GridCell)
    (hc : c ∈ BuildGridCells ms) : c.label.length = 3 := by
  rcases mem_buildGridCells ms c hc with ⟨m, k, hm, hk, rfl⟩
  rw [mkGridCell_label]
  have hle := gridDims_prod_le m
  have hcomm : (gridDims m).2 * (gridDims m).1 =
      (gridDims m).1 * (gridDims m).2 := Nat.mul_comm _ _
  have h676 : k < 676 := by omega
  rw [show k / (gridDims m).1 * (gridDims m).1 + k % (gridDims m).1 = k from by
    rw [Nat.mul_comm]
    exact Nat.div_add_mod k (gridDims m).1]
  rw [GenerateLabel_three _ _ h676]
  rfl

theorem ProcessTypedChar_step3 (cells : List GridCell)
    (gmap : List (List Nat × Pt)) (s : MachineState) (ch : Nat)
    (hvis : s.gridVisible = true) (hlen : s.typedChars.length = 2)
    (h1 : 97 ≤ ch) (h2 : ch ≤ 122) :
    ProcessTypedChar cells gmap s ch =
      (match mapFind gmap (s.typedChars ++ [ch]) with
       | some pt =>
          { s with
              typedChars := s.typedChars ++ [ch]
              highlightIndex :=
                if 0 ≤ s.highlightIndex then -1 else s.highlightIndex
              appWindows := if 0 ≤ s.highlightIndex then [] else s.appWindows
              mouseMoveMode := false
              resetTimerArmed := true
              mouse := some pt }
       | none =>
          { s with
              typedChars := s.typedChars ++ [ch]
              highlightIndex :=
                if 0 ≤ s.highlightIndex then -1 else s.highlightIndex
              appWindows := if 0 ≤ s.highlightIndex then [] else s.appWindows
              mouseMoveMode := false
              resetTimerArmed := true }) := by
  unfold ProcessTypedChar
  rw [if_neg (by rw [hvis]; simp)]
  rw [towlowerN_of_lower h1]
  rw [if_pos ⟨h1, h2⟩]
  rw [if_neg (by simp [hlen])]
  rw [if_pos (by simp [hlen])]

theorem ProcessTypedChar_step4 (cells : List GridCell)
    (gmap : List (List Nat × Pt)) (s : MachineState) (ch x y z : Nat)
    (hvis : s.gridVisible = true) (h3 : s.typedChars = [x, y, z])
    (h1 : 97 ≤ ch) (h2 : ch ≤ 122) :
    ProcessTypedChar cells gmap s ch =
      (match cells.find? (fun cell => cell.label == [x, y, z]) with
       | some cell =>
          if 97 ≤ ch ∧ ch ≤ 104 then
            { s with
                typedChars := []
                highlightIndex :=
                  if 0 ≤ s.highlightIndex then -1 else s.highlightIndex
                appWindows := if 0 ≤ s.highlightIndex then [] else s.appWindows
                mouseMoveMode := false
                resetTimerArmed := true
                mouse := some (cell.subPoints.getD (GetSubPointIndex ch) ⟨0, 0⟩) }
          else
            { s with
                typedChars := []
                highlightIndex :=
                  if 0 ≤ s.highlightIndex then -1 else s.highlightIndex
                appWindows := if 0 ≤ s.highlightIndex then [] else s.appWindows
                mouseMoveMode := false
                resetTimerArmed := true
                mouse := some cell.center }
       | none =>
          { s with
              typedChars := []
              highlightIndex :=
                if 0 ≤ s.highlightIndex then -1 else s.highlightIndex
              appWindows := if 0 ≤ s.highlightIndex then [] else s.appWindows
              mouseMoveMode := false
              resetTimerArmed := true }) := by
  unfold ProcessTypedChar
  rw [if_neg (by rw [hvis]; simp), towlowerN_of_lower h1, if_pos ⟨h1, h2⟩, h3]
  rw [if_pos (by simp)]
  dsimp only
  simp only [List.cons_append, List.nil_append, List.take_succ_cons,
    List.take_zero, List.getD_cons_succ, List.getD_cons_zero]
  rcases hfind : cells.find? (fun cell => cell.label == [x, y, z]) with _ | cell
  · rw [hfind]
  · rw [hfind]
    dsimp only
    split_ifs <;> rfl

/-! ### C6 — length-3 resolution defers, length-4 sub-point refinement -/

/-- C6: when the third accepted lowercase letter completes a label of a grid
cell, the pointer is moved to that cell's center and the buffer is kept (not
cleared); when a fourth lowercase letter is then accepted, the pointer moves
to the corresponding off-center sub-point of the resolved cell if the letter
is in `a`–`h` (whose sub-point index is never 4, the center slot), and to the
cell center otherwise, and in either case the buffer resets to empty. -/
theorem c6_defer_then_subpoint (ms : List MonitorData) (s : MachineState)
    (c : GridCell) (ch3 : Nat) (hvis : s.gridVisible = true)
    (hlen : s.typedChars.length = 2) (hc : c ∈ BuildGridCells ms)
    (h973 : 97 ≤ ch3) (h1223 : ch3 ≤ 122)
    (hlab : s.typedChars ++ [ch3] = c.label) :
    ((ProcessTypedChar (BuildGridCells ms) (buildGridMap ms) s ch3).mouse =
        some c.center ∧
      (ProcessTypedChar (BuildGridCells ms) (buildGridMap ms) s
          ch3).typedChars = c.label) ∧
    (∀ ch4, 97 ≤ ch4 → ch4 ≤ 122 →
      (ProcessTypedChar (BuildGridCells ms) (buildGridMap ms)
          (ProcessTypedChar (BuildGridCells ms) (buildGridMap ms) s ch3)
          ch4).typedChars = [] ∧
        ((97 ≤ ch4 ∧ ch4 ≤ 104) →
          GetSubPointIndex ch4 ≠ 4 ∧
            (ProcessTypedChar (BuildGridCells ms) (buildGridMap ms)
                (ProcessTypedChar (BuildGridCells ms) (buildGridMap ms) s
                  ch3) ch4).mouse =
              some (c.subPoints.getD (GetSubPointIndex ch4) ⟨0, 0⟩)) ∧
        (¬(97 ≤ ch4 ∧ ch4 ≤ 104) →
          (ProcessTypedChar (BuildGridCells ms) (buildGridMap ms)
              (ProcessTypedChar (BuildGridCells ms) (buildGridMap ms) s
                ch3) ch4).mouse = some c.center)) := by
  have hfind : mapFind (buildGridMap ms) c.label = some c.center := by
    rw [buildGridMap_eq]
    exact mapFind_of_mem _ c hc (gridLabels_nodup ms)
  have hstep1 := ProcessTypedChar_step3 (BuildGridCells ms)
    (buildGridMap ms) s ch3 hvis hlen h973 h1223
  rw [hlab, hfind] at hstep1
  have hbuf : (ProcessTypedChar (BuildGridCells ms) (buildGridMap ms) s
      ch3).typedChars = c.label := by
    rw [hstep1]
  have hvis1 : (ProcessTypedChar (BuildGridCells ms) (buildGridMap ms) s
      ch3).gridVisible = true := by
    rw [hstep1]
    exact hvis
  refine ⟨⟨?_, hbuf⟩, ?_⟩
  · rw [hstep1]
  · rcases List.length_eq_three.mp (cell_label_length ms c hc)
      with ⟨x, y, z, hxyz⟩
    have h3' : (ProcessTypedChar (BuildGridCells ms) (buildGridMap ms) s
        ch3).typedChars = [x, y, z] := by rw [hbuf, hxyz]
    have hfind2 : (BuildGridCells ms).find?
        (fun cell => cell.label == [x, y, z]) = some c := by
      rw [← hxyz]
      exact cells_find_label _ c hc (gridLabels_nodup ms)
    intro ch4 h974 h1224
    have hstep2 := ProcessTypedChar_step4 (BuildGridCells ms)
      (buildGridMap ms) _ ch4 x y z hvis1 h3' h974 h1224
    rw [hfind2] at hstep2
    refine ⟨?_, ?_, ?_⟩
    · rw [hstep2]
      dsimp only
      split_ifs <;> rfl
    · intro hr
      refine ⟨GetSubPointIndex_ne_four hr.1 hr.2, ?_⟩
      rw [hstep2]
      dsimp only
      rw [if_pos hr]
    · intro hr
      rw [hstep2]
      dsimp only
      rw [if_neg hr]

/-- Witness for C6: typing `a`, completing label `aaa` on the 100×100
monitor, moves to the center `(50,50)` and keeps the buffer; a fourth letter
`b` moves to sub-point index 1 at `(49,16)` and clears the buffer. -/
theorem c6_defer_then_subpoint_witness :
    ((ProcessTypedChar (BuildGridCells [exMonitor]) (buildGridMap [exMonitor])
        exStateAA 97).mouse = some exCell.center ∧
      (ProcessTypedChar (BuildGridCells [exMonitor])
          (buildGridMap [exMonitor]) exStateAA 97).typedChars =
        exCell.label) ∧
    (ProcessTypedChar (BuildGridCells [exMonitor]) (buildGridMap [exMonitor])
        (ProcessTypedChar (BuildGridCells [exMonitor])
          (buildGridMap [exMonitor]) exStateAA 97) 98).typedChars = [] ∧
    GetSubPointIndex 98 ≠ 4 ∧
    (ProcessTypedChar (BuildGridCells [exMonitor]) (buildGridMap [exMonitor])
        (ProcessTypedChar (BuildGridCells [exMonitor])
          (buildGridMap [exMonitor]) exStateAA 97) 98).mouse =
      some (exCell.subPoints.getD (GetSubPointIndex 98) ⟨0, 0⟩) := by
  have h := c6_defer_then_subpoint [exMonitor] exStateAA exCell 97
    (by decide) (by decide) (by decide) (by decide) (by decide) (by decide)
  have h2 := h.2 98 (by decide) (by decide)
  exact ⟨h.1, h2.1, (h2.2.1 (by decide)).1, (h2.2.1 (by decide)).2⟩

/-! ### C10 — unmatched labels -/

/-- C10: if the buffer reaches length 3 with a string that is no cell's
label, the pointer is not moved and the buffer is kept at length 3; when the
buffer then reaches length 4 with its first three characters still matching
no cell, the pointer is still not moved but the buffer resets to empty. -/
theorem c10_unmatched_label (ms : List MonitorData) (s : MachineState)
    (ch3 : Nat) (hvis : s.gridVisible = true)
    (hlen : s.typedChars.length = 2) (h973 : 97 ≤ ch3) (h1223 : ch3 ≤ 122)
    (hnot : s.typedChars ++ [ch3] ∉ (BuildGridCells ms).map GridCell.label) :
    ((ProcessTypedChar (BuildGridCells ms) (buildGridMap ms) s ch3).mouse =
        s.mouse ∧
      (ProcessTypedChar (BuildGridCells ms) (buildGridMap ms) s
          ch3).typedChars = s.typedChars ++ [ch3]) ∧
    (∀ ch4, 97 ≤ ch4 → ch4 ≤ 122 →
      (ProcessTypedChar (BuildGridCells ms) (buildGridMap ms)
          (ProcessTypedChar (BuildGridCells ms) (buildGridMap ms) s ch3)
          ch4).typedChars = [] ∧
        (ProcessTypedChar (BuildGridCells ms) (buildGridMap ms)
            (ProcessTypedChar (BuildGridCells ms) (buildGridMap ms) s ch3)
            ch4).mouse = s.mouse) := by
  have hfindnone : mapFind (buildGridMap ms) (s.typedChars ++ [ch3]) =
      none := by
    rw [buildGridMap_eq]
    exact mapFind_of_not_mem _ _ hnot
  have hstep1 := ProcessTypedChar_step3 (BuildGridCells ms)
    (buildGridMap ms) s ch3 hvis hlen h973 h1223
  rw [hfindnone] at hstep1
  have hbuf : (ProcessTypedChar (BuildGridCells ms) (buildGridMap ms) s
      ch3).typedChars = s.typedChars ++ [ch3] := by
    rw [hstep1]
  have hvis1 : (ProcessTypedChar (BuildGridCells ms) (buildGridMap ms) s
      ch3).gridVisible = true := by
    rw [hstep1]
    exact hvis
  have hmouse1 : (ProcessTypedChar (BuildGridCells ms) (buildGridMap ms) s
      ch3).mouse = s.mouse := by
    rw [hstep1]
  refine ⟨⟨hmouse1, hbuf⟩, ?_⟩
  rcases List.length_eq_two.mp hlen with ⟨x, y, hxy⟩
  have h3' : (ProcessTypedChar (BuildGridCells ms) (buildGridMap ms) s
      ch3).typedChars = [x, y, ch3] := by
    rw [hbuf, hxy]
    rfl
  have hfind2 : (BuildGridCells ms).find?
      (fun cell => cell.label == [x, y, ch3]) = none := by
    apply cells_find_label_none
    rw [show ([x, y, ch3] : List Nat) = [x, y] ++ [ch3] from rfl, ← hxy]
    exact hnot
  intro ch4 h974 h1224
  have hstep2 := ProcessTypedChar_step4 (BuildGridCells ms)
    (buildGridMap ms) _ ch4 x y ch3 hvis1 h3' h974 h1224
  rw [hfind2] at hstep2
  constructor
  · rw [hstep2]
  · rw [hstep2]
    dsimp only
    exact hmouse1

/-- Witness for C10: with buffer `zz` and typed `z`, the string `zzz` matches
no label of the 100×100 monitor's single-cell grid (`aaa`); the pointer stays
unmoved, the buffer keeps `zzz` and is cleared after a fourth letter `a`. -/
theorem c10_unmatched_label_witness :
    ((ProcessTypedChar (BuildGridCells [exMonitor]) (buildGridMap [exMonitor])
        exStateZZ 122).mouse = exStateZZ.mouse ∧
      (ProcessTypedChar (BuildGridCells [exMonitor])
          (buildGridMap [exMonitor]) exStateZZ 122).typedChars =
        exStateZZ.typedChars ++ [122]) ∧
    (ProcessTypedChar (BuildGridCells [exMonitor]) (buildGridMap [exMonitor])
        (ProcessTypedChar (BuildGridCells [exMonitor])
          (buildGridMap [exMonitor]) exStateZZ 122) 97).typedChars = [] ∧
    (ProcessTypedChar (BuildGridCells [exMonitor]) (buildGridMap [exMonitor])
        (ProcessTypedChar (BuildGridCells [exMonitor])
          (buildGridMap [exMonitor]) exStateZZ 122) 97).mouse =
      exStateZZ.mouse := by
  have h := c10_unmatched_label [exMonitor] exStateZZ 122 (by decide)
    (by decide) (by decide) (by decide) (by decide)
  exact ⟨h.1, h.2 97 (by decide) (by decide)⟩

/-! ### C9 — transition to Idle -/

/-- Counterexample to C9 as stated: hiding the grid from a state in which the
address-reset inactivity timer (`TIMER_ID_RESET`) is armed does NOT cancel
that timer — `HideGrid` kills only the selector auto-promote timer
(`TIMER_ID_TAB_TEXT`), so the claim that the transition to Idle cancels both
pending timers is false. -/
theorem c9_reset_timer_not_cancelled :
    exHideState.gridVisible = true ∧ exHideState.resetTimerArmed = true ∧
      ¬(HideGrid exHideState).resetTimerArmed = false := by
  refine ⟨rfl, rfl, ?_⟩
  decide

/-- C9 (amended): the transition to Idle from any sub-state with the overlay
visible unconditionally clears the address buffer, all four window lists, the
selection index, the filter string, the text-mode and scroll-mode flags, and
cancels the selector auto-promote timer — but not the address-reset
inactivity timer, which stays armed (its later expiry is a no-op because the
buffer is already empty). -/
theorem c9_hide_clears_transient_state (s : MachineState)
    (hvis : s.gridVisible = true) :
    (HideGrid s).gridVisible = false ∧
      (HideGrid s).typedChars = [] ∧
      (HideGrid s).appWindows = [] ∧
      (HideGrid s).allAppWindows = [] ∧
      (HideGrid s).minimizedWindows = [] ∧
      (HideGrid s).allMinimizedWindows = [] ∧
      (HideGrid s).highlightIndex = -1 ∧
      (HideGrid s).tabSearchStr = [] ∧
      (HideGrid s).tabTextMode = false ∧
      (HideGrid s).tabTextTimerArmed = false ∧
      (HideGrid s).scrollMode = false ∧
      (HideGrid s).mouseMoveMode = false ∧
      (HideGrid s).resetTimerArmed = s.resetTimerArmed := by
  have h : HideGrid s =
      { s with
          gridVisible := false
          mouseMoveMode := false
          typedChars := []
          appWindows := []
          allAppWindows := []
          minimizedWindows := []
          allMinimizedWindows := []
          highlightIndex := -1
          tabSearchStr := []
          tabTextMode := false
          tabTextTimerArmed := false
          scrollMode := false } := by
    unfold HideGrid
    rw [if_neg (by rw [hvis]; simp)]
  rw [h]
  exact ⟨rfl, rfl, rfl, rfl, rfl, rfl, rfl, rfl, rfl, rfl, rfl, rfl, rfl⟩

/-- Witness for C9 (amended): hiding the populated example state clears all
its transient state. -/
theorem c9_hide_clears_transient_state_witness :
    (HideGrid exHideState).gridVisible = false ∧
      (HideGrid exHideState).typedChars = [] ∧
      (HideGrid exHideState).appWindows = [] ∧
      (HideGrid exHideState).allAppWindows = [] ∧
      (HideGrid exHideState).minimizedWindows = [] ∧
      (HideGrid exHideState).allMinimizedWindows = [] ∧
      (HideGrid exHideState).highlightIndex = -1 ∧
      (HideGrid exHideState).tabSearchStr = [] ∧
      (HideGrid exHideState).tabTextMode = false ∧
      (HideGrid exHideState).tabTextTimerArmed = false ∧
      (HideGrid exHideState).scrollMode = false ∧
      (HideGrid exHideState).mouseMoveMode = false ∧
      (HideGrid exHideState).resetTimerArmed = exHideState.resetTimerArmed :=
  c9_hide_clears_transient_state exHideState (by decide)

/-! ### Substring search lemmas and C8 -/

theorem startsWith_iff (needle : List Nat) :
    ∀ hay, startsWith needle hay = true ↔ ∃ q, hay = needle ++ q := by
  induction needle with
  | nil => intro hay; simp [startsWith]
  | cons a as ih =>
      intro hay
      cases hay with
      | nil => simp [startsWith]
      | cons b bs =>
          simp only [startsWith, Bool.and_eq_true, beq_iff_eq, ih,
            List.cons_append, List.cons.injEq]
          constructor
          · rintro ⟨rfl, q, rfl⟩
            exact ⟨q, rfl, rfl⟩
          · rintro ⟨q, rfl, rfl⟩
            exact ⟨rfl, q, rfl⟩

theorem strFind_iff (needle : List Nat) :
    ∀ hay, strFind needle hay = true ↔ IsSubstring needle hay := by
  intro hay
  induction hay with
  | nil =>
      simp only [strFind, startsWith_iff, IsSubstring]
      constructor
      · rintro ⟨q, hq⟩
        exact ⟨[], q, by simpa using hq⟩
      · rintro ⟨p, q, hpq⟩
        have h1 := List.append_eq_nil.mp hpq.symm
        have h2 := List.append_eq_nil.mp h1.1
        exact ⟨[], by simp [h2.2]⟩
  | cons b bs ih =>
      simp only [strFind, Bool.or_eq_true, startsWith_iff, ih, IsSubstring]
      constructor
      · rintro (⟨q, hq⟩ | ⟨p, q, hpq⟩)
        · exact ⟨[], q, by simpa using hq⟩
        · exact ⟨b :: p, q, by simp [hpq]⟩
      · rintro ⟨p, q, hpq⟩
        cases p with
        | nil => exact Or.inl ⟨q, by simpa using hpq⟩
        | cons c cs =>
            simp only [List.cons_append, List.cons.injEq] at hpq
            exact Or.inr ⟨cs, q, hpq.2⟩

theorem titleMatches_iff (search title : List Nat) :
    titleMatches search title = true ↔
      IsSubstring (search.map towlowerN) (title.map towlowerN) := by
  unfold titleMatches
  exact strFind_iff _ _

/-- C8: a letter typed while the selector is active is appended to the filter
string, and the filter keeps exactly the windows of the unfiltered full
catalogs (`allAppWindows` and `allMinimizedWindows`, not the cycle-eligible
subset) whose title contains the filter string as a case-insensitive
substring; the highlighted index resets to 0 of the filtered result, or to
none (`-1`) when nothing matches; in particular filter `note` over titles
`Notepad` / `Notepad++` / `Firefox` keeps exactly `Notepad` and
`Notepad++`. -/
theorem c8_filter_case_insensitive (cells : List GridCell)
    (gmap : List (List Nat × Pt)) (s : MachineState) (ch : Nat)
    (hact : 0 ≤ s.highlightIndex ∨ s.tabTextMode = true ∨
      s.tabSearchStr ≠ []) (h97 : 97 ≤ ch) (h122 : ch ≤ 122) :
    ((onCharLetter cells gmap s ch).tabSearchStr =
        s.tabSearchStr ++ [ch] ∧
      (onCharLetter cells gmap s ch).appWindows =
        s.allAppWindows.filter
          (fun w => titleMatches (s.tabSearchStr ++ [ch]) w.title) ∧
      (onCharLetter cells gmap s ch).minimizedWindows =
        s.allMinimizedWindows.filter
          (fun w => titleMatches (s.tabSearchStr ++ [ch]) w.title) ∧
      (∀ w : AppWindow,
        titleMatches (s.tabSearchStr ++ [ch]) w.title = true ↔
          IsSubstring ((s.tabSearchStr ++ [ch]).map towlowerN)
            (w.title.map towlowerN)) ∧
      ((onCharLetter cells gmap s ch).appWindows = [] ∧
          (onCharLetter cells gmap s ch).minimizedWindows = [] →
        (onCharLetter cells gmap s ch).highlightIndex = -1) ∧
      ((onCharLetter cells gmap s ch).appWindows ≠ [] ∨
          (onCharLetter cells gmap s ch).minimizedWindows ≠ [] →
        (onCharLetter cells gmap s ch).highlightIndex = 0)) ∧
    (onCharLetter [] [] exSelectorState 101).appWindows =
      [notepadW, notepadPPW] := by
  have hchar : onCharLetter cells gmap s ch =
      { s with
          tabSearchStr := s.tabSearchStr ++ [ch]
          tabTextTimerArmed := true
          appWindows := s.allAppWindows.filter
            (fun w => titleMatches (s.tabSearchStr ++ [ch]) w.title)
          minimizedWindows := s.allMinimizedWindows.filter
            (fun w => titleMatches (s.tabSearchStr ++ [ch]) w.title)
          highlightIndex :=
            if s.allAppWindows.filter
                (fun w => titleMatches (s.tabSearchStr ++ [ch]) w.title)
                ≠ [] then 0
            else if s.allMinimizedWindows.filter
                (fun w => titleMatches (s.tabSearchStr ++ [ch]) w.title)
                ≠ [] then 0
            else -1 } := by
    unfold onCharLetter
    rw [if_pos ⟨h97, h122⟩, if_pos hact]
    unfold FilterAppWindowsBySearch
    rw [if_neg (by simp)]
  refine ⟨⟨?_, ?_, ?_, ?_, ?_, ?_⟩, ?_⟩
  · rw [hchar]
  · rw [hchar]
  · rw [hchar]
  · intro w
    exact titleMatches_iff _ _
  · intro h
    rcases h with ⟨h1, h2⟩
    rw [hchar] at h1 h2 ⊢
    dsimp only at h1 h2 ⊢
    rw [if_neg (by simp [h1]), if_neg (by simp [h2])]
  · intro h
    rw [hchar] at h ⊢
    dsimp only at h ⊢
    rcases h with h | h
    · rw [if_pos h]
    · by_cases ha : s.allAppWindows.filter
          (fun w => titleMatches (s.tabSearchStr ++ [ch]) w.title) ≠ []
      · rw [if_pos ha]
      · rw [if_neg ha, if_pos h]
  · decide

/-- Witness for C8: typing `e` in the active selector state with filter `not`
yields filter `note` and keeps exactly the two Notepad windows from the full
catalog. -/
theorem c8_filter_case_insensitive_witness :
    (onCharLetter [] [] exSelectorState 101).tabSearchStr =
        exSelectorState.tabSearchStr ++ [101] ∧
      (onCharLetter [] [] exSelectorState 101).appWindows =
        exSelectorState.allAppWindows.filter
          (fun w =>
            titleMatches (exSelectorState.tabSearchStr ++ [101]) w.title) := by
  have h := c8_filter_case_insensitive [] [] exSelectorState 101
    (by left; decide) (by decide) (by decide)
  exact ⟨h.1.1, h.1.2.1⟩

/-! ### C7 — sort and zero-area filtering -/

/-- Counterexample to C7 as stated: with two distinct windows of equal
`visibleArea`, reversing them is a valid result of the code's `std::sort`
call (a permutation, sorted under the `visibleArea > visibleArea`
comparator), yet it does not preserve the prior relative order of the tied
pair — so the code does not guarantee stable ties. -/
theorem c7_sort_stability_counterexample :
    sortByAreaSpec [tieA, tieB] [tieB, tieA] ∧
      ¬stableTieOrder [tieA, tieB] [tieB, tieA] := by
  constructor
  · exact ⟨List.Perm.swap tieA tieB [], by decide⟩
  · intro h
    have := h tieA tieB (by decide) (by decide)
    exact absurd this (by decide)

/-- C7 (amended): after a catalog refresh, every valid output of the
`std::sort` call is a permutation of the area-annotated window list sorted by
`visibleArea` descending (tie order unspecified, not necessarily stable), and
the cycle-eligible list is exactly the sorted full list (`allWindows`) with
the `visibleArea = 0` entries removed, preserving order. -/
theorem c7_sorted_desc_and_zero_filtered (raw sorted : List AppWindow)
    (hsort : sortByAreaSpec (computeAreas [] raw) sorted) :
    sorted.Pairwise (fun a b => b.visibleArea ≤ a.visibleArea) ∧
      sorted.Perm (computeAreas [] raw) ∧
      removeZeroArea sorted =
        sorted.filter (fun w => decide (w.visibleArea ≠ 0)) := by
  refine ⟨hsort.2, hsort.1, ?_⟩
  unfold removeZeroArea
  apply List.filter_congr
  intro w _
  rcases Nat.eq_zero_or_pos w.visibleArea with h | h
  · simp [h]
  · have h1 : ¬w.visibleArea ≤ 0 := by omega
    have h2 : w.visibleArea ≠ 0 := by omega
    simp [h1, h2]

/-- Witness for C7 (amended): the identity output on a one-window catalog is
a valid sort result, and the zero-area filtering equation holds for it. -/
theorem c7_sorted_desc_and_zero_filtered_witness :
    sortByAreaSpec (computeAreas [] [tieA]) (computeAreas [] [tieA]) ∧
      removeZeroArea (computeAreas [] [tieA]) =
        (computeAreas [] [tieA]).filter
          (fun w => decide (w.visibleArea ≠ 0)) := by
  have hs : sortByAreaSpec (computeAreas [] [tieA]) (computeAreas [] [tieA]) :=
    ⟨List.Perm.refl _, by simp [computeAreas]⟩
  exact ⟨hs, (c7_sorted_desc_and_zero_filtered [tieA] _ hs).2.2⟩

/-! ### C2 — tiling of the monitor by grid cells -/

theorem mem_mkGridCell_pixels (m : MonitorInfo)
    (cols cellW cellH row col : Nat) (p : Int × Int) :
    p ∈ (mkGridCell m cols cellW cellH row col).rect.pixels ↔
      (m.rcMonitor.left + ((col * cellW : Nat) : Int) ≤ p.1 ∧
        p.1 < m.rcMonitor.left + ((col * cellW : Nat) : Int) + (cellW : Int) ∧
        m.rcMonitor.top + ((row * cellH : Nat) : Int) ≤ p.2 ∧
        p.2 < m.rcMonitor.top + ((row * cellH : Nat) : Int) + (cellH : Int)) := by
  rw [mem_pixels]
  exact Iff.rfl

theorem mkGridCell_disjoint (m : MonitorInfo) (cols cellW cellH : Nat)
    (r1 c1 r2 c2 : Nat) (hne : ¬(r1 = r2 ∧ c1 = c2)) :
    Disjoint (mkGridCell m cols cellW cellH r1 c1).rect.pixels
      (mkGridCell m cols cellW cellH r2 c2).rect.pixels := by
  rw [Finset.disjoint_left]
  intro p hp1 hp2
  rw [mem_mkGridCell_pixels] at hp1 hp2
  push_cast at hp1 hp2
  obtain ⟨h1a, h1b, h1c, h1d⟩ := hp1
  obtain ⟨h2a, h2b, h2c, h2d⟩ := hp2
  have hcase : c1 ≠ c2 ∨ r1 ≠ r2 := by
    by_contra hcon
    push_neg at hcon
    exact hne ⟨hcon.2, hcon.1⟩
  have hx : ∀ a b : Nat, a < b →
      (a : Int) * cellW + cellW ≤ (b : Int) * cellW := by
    intro a b hab
    have h1 : ((a : Int) + 1) ≤ b := by exact_mod_cast hab
    calc (a : Int) * cellW + cellW = ((a : Int) + 1) * cellW := by ring
      _ ≤ (b : Int) * cellW :=
        mul_le_mul_of_nonneg_right h1 (by positivity)
  have hy : ∀ a b : Nat, a < b →
      (a : Int) * cellH + cellH ≤ (b : Int) * cellH := by
    intro a b hab
    have h1 : ((a : Int) + 1) ≤ b := by exact_mod_cast hab
    calc (a : Int) * cellH + cellH = ((a : Int) + 1) * cellH := by ring
      _ ≤ (b : Int) * cellH :=
        mul_le_mul_of_nonneg_right h1 (by positivity)
  rcases hcase with hc | hr
  · rcases Nat.lt_or_ge c1 c2 with hlt | hge
    · have := hx c1 c2 hlt
      linarith
    · have hlt : c2 < c1 := by omega
      have := hx c2 c1 hlt
      linarith
  · rcases Nat.lt_or_ge r1 r2 with hlt | hge
    · have := hy r1 r2 hlt
      linarith
    · have hlt : r2 < r1 := by omega
      have := hy r2 r1 hlt
      linarith

theorem buildMonitorCells_pairwise_disjoint (m : MonitorInfo) :
    (buildMonitorCells m).Pairwise
      (fun c d => Disjoint c.rect.pixels d.rect.pixels) := by
  rw [buildMonitorCells_eq, List.pairwise_map]
  apply List.Pairwise.imp ?_ (List.pairwise_lt_range _)
  intro k l hkl
  apply mkGridCell_disjoint
  intro heq
  have hk := Nat.div_add_mod k (gridDims m).1
  have hl := Nat.div_add_mod l (gridDims m).1
  rw [heq.1, heq.2] at hk
  have hkl2 : k = l := hk.symm.trans hl
  omega

theorem cols_le_monW (m : MonitorInfo) (hW : 0 < monWpx m) :
    (gridDims m).1 ≤ monWpx m := by
  have h1 := (capDimsAux_le (initCols m + initRows m) (initCols m)
    (initRows m)).1
  have h2 : initCols m ≤ monWpx m := by
    unfold initCols monWpx
    exact max_le (by unfold monWpx at hW; omega) (Nat.div_le_self _ _)
  exact h1.trans h2

theorem rows_le_monH (m : MonitorInfo) (hH : 0 < monHpx m) :
    (gridDims m).2 ≤ monHpx m := by
  have h1 := (capDimsAux_le (initCols m + initRows m) (initCols m)
    (initRows m)).2
  have h2 : initRows m ≤ monHpx m := by
    unfold initRows monHpx
    exact max_le (by unfold monHpx at hH; omega) (Nat.div_le_self _ _)
  exact h1.trans h2

theorem cellWpx_pos (m : MonitorInfo) (hW : 0 < monWpx m) : 0 < cellWpx m :=
  (Nat.one_le_div_iff (gridDims_pos m).1).mpr (cols_le_monW m hW)

theorem cellHpx_pos (m : MonitorInfo) (hH : 0 < monHpx m) : 0 < cellHpx m :=
  (Nat.one_le_div_iff (gridDims_pos m).2).mpr (rows_le_monH m hH)

theorem buildMonitorCells_covers (m : MonitorInfo)
    (hW : m.rcMonitor.left < m.rcMonitor.right)
    (hH : m.rcMonitor.top < m.rcMonitor.bottom) (p : Int × Int) :
    (∃ c ∈ buildMonitorCells m, p ∈ c.rect.pixels) ↔
      p ∈ (coveredRect m).pixels := by
  have hWpos : 0 < monWpx m := by unfold monWpx; omega
  have hHpos : 0 < monHpx m := by unfold monHpx; omega
  have hcw : 0 < cellWpx m := cellWpx_pos m hWpos
  have hch : 0 < cellHpx m := cellHpx_pos m hHpos
  have hcols : 0 < (gridDims m).1 := (gridDims_pos m).1
  have hrows : 0 < (gridDims m).2 := (gridDims_pos m).2
  constructor
  · rintro ⟨c, hc, hp⟩
    rw [buildMonitorCells_eq] at hc
    rcases List.mem_map.mp hc with ⟨k, hk, rfl⟩
    rw [List.mem_range] at hk
    set row := k / (gridDims m).1 with hrowdef
    set col := k % (gridDims m).1 with hcoldef
    have hcollt : col < (gridDims m).1 := by
      rw [hcoldef]
      exact Nat.mod_lt _ hcols
    have hrowlt : row < (gridDims m).2 := by
      rw [hrowdef, Nat.div_lt_iff_lt_mul hcols]
      exact hk
    rw [mem_mkGridCell_pixels] at hp
    push_cast at hp
    rw [mem_pixels]
    simp only [coveredRect]
    obtain ⟨h1, h2, h3, h4⟩ := hp
    have hnn1 : (0 : Int) ≤ (col : Int) * (cellWpx m : Int) := by positivity
    have hnn2 : (0 : Int) ≤ (row : Int) * (cellHpx m : Int) := by positivity
    have hcc : ((col : Int) + 1) * (cellWpx m : Int) ≤
        ((gridDims m).1 : Int) * (cellWpx m : Int) := by
      apply mul_le_mul_of_nonneg_right _ (by positivity)
      exact_mod_cast hcollt
    have hrr : ((row : Int) + 1) * (cellHpx m : Int) ≤
        ((gridDims m).2 : Int) * (cellHpx m : Int) := by
      apply mul_le_mul_of_nonneg_right _ (by positivity)
      exact_mod_cast hrowlt
    refine ⟨by linarith, by nlinarith, by linarith, by nlinarith⟩
  · intro hp
    rw [mem_pixels] at hp
    simp only [coveredRect] at hp
    obtain ⟨h1, h2, h3, h4⟩ := hp
    have hdx0 : 0 ≤ p.1 - m.rcMonitor.left := by linarith
    have hdy0 : 0 ≤ p.2 - m.rcMonitor.top := by linarith
    set dx := (p.1 - m.rcMonitor.left).toNat with hdxdef
    set dy := (p.2 - m.rcMonitor.top).toNat with hdydef
    have hdxc : (dx : Int) = p.1 - m.rcMonitor.left := by
      rw [hdxdef]
      exact Int.toNat_of_nonneg hdx0
    have hdyc : (dy : Int) = p.2 - m.rcMonitor.top := by
      rw [hdydef]
      exact Int.toNat_of_nonneg hdy0
    have hdxlt : dx < (gridDims m).1 * cellWpx m := by
      have h5 : (dx : Int) < (((gridDims m).1 * cellWpx m : Nat) : Int) := by
        push_cast
        linarith
      exact_mod_cast h5
    have hdylt : dy < (gridDims m).2 * cellHpx m := by
      have h5 : (dy : Int) < (((gridDims m).2 * cellHpx m : Nat) : Int) := by
        push_cast
        linarith
      exact_mod_cast h5
    set col := dx / cellWpx m with hcoldef
    set row := dy / cellHpx m with hrowdef
    have hcollt : col < (gridDims m).1 := by
      rw [hcoldef, Nat.div_lt_iff_lt_mul hcw]
      exact hdxlt
    have hrowlt : row < (gridDims m).2 := by
      rw [hrowdef, Nat.div_lt_iff_lt_mul hch]
      exact hdylt
    have hb1 : col * cellWpx m ≤ dx := by
      rw [hcoldef]
      exact Nat.div_mul_le_self _ _
    have hb2 : dx < col * cellWpx m + cellWpx m := by
      have hdm := Nat.div_add_mod dx (cellWpx m)
      have hmod : dx % cellWpx m < cellWpx m := Nat.mod_lt _ hcw
      calc dx = cellWpx m * (dx / cellWpx m) + dx % cellWpx m := hdm.symm
        _ < cellWpx m * (dx / cellWpx m) + cellWpx m :=
          Nat.add_lt_add_left hmod _
        _ = col * cellWpx m + cellWpx m := by rw [hcoldef]; ring
    have hb3 : row * cellHpx m ≤ dy := by
      rw [hrowdef]
      exact Nat.div_mul_le_self _ _
    have hb4 : dy < row * cellHpx m + cellHpx m := by
      have hdm := Nat.div_add_mod dy (cellHpx m)
      have hmod : dy % cellHpx m < cellHpx m := Nat.mod_lt _ hch
      calc dy = cellHpx m * (dy / cellHpx m) + dy % cellHpx m := hdm.symm
        _ < cellHpx m * (dy / cellHpx m) + cellHpx m :=
          Nat.add_lt_add_left hmod _
        _ = row * cellHpx m + cellHpx m := by rw [hrowdef]; ring
    refine ⟨mkGridCell m (gridDims m).1 (cellWpx m) (cellHpx m) row col,
      ?_, ?_⟩
    · rw [buildMonitorCells_eq]
      apply List.mem_map.mpr
      have hdiv : (row * (gridDims m).1 + col) / (gridDims m).1 = row := by
        rw [show row * (gridDims m).1 + col =
            col + (gridDims m).1 * row from by ring,
          Nat.add_mul_div_left _ _ hcols, Nat.div_eq_of_lt hcollt,
          Nat.zero_add]
      have hmod2 : (row * (gridDims m).1 + col) % (gridDims m).1 = col := by
        rw [show row * (gridDims m).1 + col =
            col + (gridDims m).1 * row from by ring,
          Nat.add_mul_mod_self_left, Nat.mod_eq_of_lt hcollt]
      refine ⟨row * (gridDims m).1 + col, List.mem_range.mpr ?_, ?_⟩
      · have hstep := Nat.add_lt_add_left hcollt (row * (gridDims m).1)
        have hmono : (row + 1) * (gridDims m).1 ≤
            (gridDims m).2 * (gridDims m).1 :=
          Nat.mul_le_mul_right _ hrowlt
        calc row * (gridDims m).1 + col
            < row * (gridDims m).1 + (gridDims m).1 := hstep
          _ = (row + 1) * (gridDims m).1 := by ring
          _ ≤ (gridDims m).2 * (gridDims m).1 := hmono
      · rw [hdiv, hmod2]
    · rw [mem_mkGridCell_pixels]
      push_cast
      have i1 : ((col * cellWpx m : Nat) : Int) ≤ (dx : Int) := by
        exact_mod_cast hb1
      have i2 : (dx : Int) < ((col * cellWpx m + cellWpx m : Nat) : Int) := by
        exact_mod_cast hb2
      have i3 : ((row * cellHpx m : Nat) : Int) ≤ (dy : Int) := by
        exact_mod_cast hb3
      have i4 : (dy : Int) < ((row * cellHpx m + cellHpx m : Nat) : Int) := by
        exact_mod_cast hb4
      push_cast at i1 i2 i3 i4
      refine ⟨by linarith, by linarith, by linarith, by linarith⟩

theorem coveredRect_subset (m : MonitorInfo)
    (hW : m.rcMonitor.left < m.rcMonitor.right)
    (hH : m.rcMonitor.top < m.rcMonitor.bottom) :
    (coveredRect m).pixels ⊆ m.rcMonitor.pixels := by
  intro p hp
  rw [mem_pixels] at hp ⊢
  simp only [coveredRect] at hp
  obtain ⟨h1, h2, h3, h4⟩ := hp
  have hcw : (gridDims m).1 * cellWpx m ≤ monWpx m := by
    unfold cellWpx
    rw [Nat.mul_comm]
    exact Nat.div_mul_le_self _ _
  have hch : (gridDims m).2 * cellHpx m ≤ monHpx m := by
    unfold cellHpx
    rw [Nat.mul_comm]
    exact Nat.div_mul_le_self _ _
  have hw2 : ((monWpx m : Nat) : Int) =
      m.rcMonitor.right - m.rcMonitor.left := by
    unfold monWpx
    exact Int.toNat_of_nonneg (by omega)
  have hh2 : ((monHpx m : Nat) : Int) =
      m.rcMonitor.bottom - m.rcMonitor.top := by
    unfold monHpx
    exact Int.toNat_of_nonneg (by omega)
  have hcwI : (((gridDims m).1 * cellWpx m : Nat) : Int) ≤
      ((monWpx m : Nat) : Int) := by exact_mod_cast hcw
  have hchI : (((gridDims m).2 * cellHpx m : Nat) : Int) ≤
      ((monHpx m : Nat) : Int) := by exact_mod_cast hch
  exact ⟨h1, by linarith, h3, by linarith⟩

/-- Counterexample to C2 as stated: on a 173×86, 96-DPI monitor the grid is
2 columns × 1 row of 86×86 cells, and the monitor pixel `(172, 0)` (inside
the monitor's bounds) is covered by no cell — the residual pixels left over
from the integer division are NOT absorbed into the last column, they are
simply not covered. -/
theorem c2_residual_uncovered_counterexample :
    ((172 : Int), (0 : Int)) ∈ residMonitor.rcMonitor.pixels ∧
      ¬∃ c ∈ buildMonitorCells residMonitor,
        ((172 : Int), (0 : Int)) ∈ c.rect.pixels := by
  constructor
  · rw [mem_pixels]
    exact ⟨by decide, by decide, by decide, by decide⟩
  · intro hex
    have hmem := (buildMonitorCells_covers residMonitor (by decide)
      (by decide) _).mp hex
    rw [mem_pixels] at hmem
    exact absurd hmem (by decide)

/-- C2 (amended): for every monitor with non-degenerate bounds, the grid
cells form a non-overlapping tiling — the pixel sets of distinct cells are
pairwise disjoint — whose union is exactly the sub-rectangle of
`gridCols · cellWidth` by `gridRows · cellHeight` pixels anchored at the
monitor's top-left corner; that sub-rectangle lies inside the monitor's
bounds, and the residual pixels of the integer division (to its right and
below) are left uncovered rather than absorbed into the last row/column. -/
theorem c2_cells_tile_covered_subrectangle (m : MonitorInfo)
    (hW : m.rcMonitor.left < m.rcMonitor.right)
    (hH : m.rcMonitor.top < m.rcMonitor.bottom) :
    (buildMonitorCells m).Pairwise
        (fun c d => Disjoint c.rect.pixels d.rect.pixels) ∧
      (∀ p : Int × Int,
        (∃ c ∈ buildMonitorCells m, p ∈ c.rect.pixels) ↔
          p ∈ (coveredRect m).pixels) ∧
      (coveredRect m).pixels ⊆ m.rcMonitor.pixels :=
  ⟨buildMonitorCells_pairwise_disjoint m, buildMonitorCells_covers m hW hH,
    coveredRect_subset m hW hH⟩

/-- Witness for C2 (amended): the 1920×1080 monitor. -/
theorem c2_cells_tile_covered_subrectangle_witness :
    (buildMonitorCells exMonitorFHD).Pairwise
        (fun c d => Disjoint c.rect.pixels d.rect.pixels) ∧
      (∀ p : Int × Int,
        (∃ c ∈ buildMonitorCells exMonitorFHD, p ∈ c.rect.pixels) ↔
          p ∈ (coveredRect exMonitorFHD).pixels) ∧
      (coveredRect exMonitorFHD).pixels ⊆ exMonitorFHD.rcMonitor.pixels :=
  c2_cells_tile_covered_subrectangle exMonitorFHD (by decide) (by decide)
